import Mathlib

/-!
Shallow embedding of the migration-runner core of `pytest_alembic`
(`src/pytest_alembic/runner.py`) together with spec-modelled views of its
external collaborators (command executor, connection executor, revision
history).  Side effects of the Python code (commands issued against the
migration tool, row inserts through the live connection, resource
acquisition) are made observable as an explicit event trace; Python
exceptions become `Except` error values.
-/

set_option autoImplicit false

namespace PytestAlembic

instance {ε α : Type} [DecidableEq ε] [DecidableEq α] : DecidableEq (Except ε α) :=
  fun x y =>
    match x, y with
    | .ok a, .ok b =>
      if h : a = b then .isTrue (by rw [h])
      else .isFalse (by intro hh; injection hh; contradiction)
    | .error a, .error b =>
      if h : a = b then .isTrue (by rw [h])
      else .isFalse (by intro hh; injection hh; contradiction)
    | .ok _, .error _ => .isFalse (by intro hh; exact Except.noConfusion hh)
    | .error _, .ok _ => .isFalse (by intro hh; exact Except.noConfusion hh)

/-- Embedding of Python's `str.strip()`: drop whitespace characters from both
ends (structurally recursive, unlike `String.trim`). -/
def pyStrip (s : String) : String :=
  ⟨((s.data.dropWhile Char.isWhitespace).reverse.dropWhile Char.isWhitespace).reverse⟩

/-- Seed-data payload registered for one revision: either a single mapping of
column to value or a sequence of row mappings (`Union[Dict, List]` in the
source). -/
inductive UpgradeData where
  | dict (entries : List (String × String))
  | rows (items : List (List (String × String)))
  deriving DecidableEq, Repr

/-- Python truthiness of an `UpgradeData` payload: an empty dict and an empty
list are both falsy. -/
def UpgradeData.truthy : UpgradeData → Bool
  | .dict entries => !entries.isEmpty
  | .rows items => !items.isEmpty

/-- Exceptions that can escape the runner's operations. -/
inductive RunnerError where
  /-- Raised by history queries for an identifier absent from the history. -/
  | unknownRevision (rev : String)
  /-- Raised when the raw history text cannot be parsed. -/
  | parseError
  /-- Python `AttributeError`: attribute lookup failed on an object. -/
  | attributeError (attr : String)
  /-- Python `TypeError`, e.g. calling `None`. -/
  | typeError (msg : String)
  /-- The `RevisionSuccess` control-flow sentinel raised during revision
  generation. -/
  | revisionSuccess
  /-- Any other error coming out of the underlying migration tool. -/
  | toolError (msg : String)
  deriving DecidableEq, Repr

/-- Observable effects of the runner, in the order they occur. -/
inductive Event where
  /-- A command was sent to the command executor. -/
  | runCommand (name : String) (args : List String)
  /-- The connection executor's `table_insert(revision, data)` ran. -/
  | tableInsert (revision : String) (data : UpgradeData)
  /-- The connection executor was called directly with
  `(revision, tablename, data)`. -/
  | connectionInsert (revision : String) (tablename : String)
  /-- The command-tool environment was built from the configuration. -/
  | acquireCommandEnv
  /-- The supplied engine was bound as the executor's connection. -/
  | bindConnection (engineId : Nat)
  /-- The command-tool environment was closed. -/
  | closeCommandEnv
  /-- The bound connection was closed. -/
  | closeConnection
  /-- A caller-supplied `process_revision_directives` callback was invoked
  with the given `(context, revision, directives)`. -/
  | callFn (context : String) (revision : String) (directives : String)
  /-- The underlying revision command completed and wrote a revision file. -/
  | writeRevisionFile
  deriving DecidableEq, Repr

/-- Lookup in an association list, the embedding of `dict.get`. -/
def lookupData : List (String × UpgradeData) → String → Option UpgradeData
  | [], _ => none
  | (k, v) :: rest, r => if k = r then some v else lookupData rest r

/-- Python truthiness of `dict.get`'s result: `None` and empty payloads are
falsy. -/
def seedTruthy (data : List (String × UpgradeData)) (r : String) : Bool :=
  match lookupData data r with
  | some d => d.truthy
  | none => false

/-- An opaque database engine, identified by a tag. -/
structure Engine where
  id : Nat
  deriving DecidableEq, Repr

/-- Modelled from the spec: the configuration consumed by the runner.  It
carries the environment the command executor answers queries from, plus the
optional `revision_upgrade_data` mapping the runner reads at construction. -/
structure Config where
  current_output : List String
  history_output : List String
  heads_output : List String
  revision_upgrade_data : Option (List (String × UpgradeData)) := none

/-- Modelled from the spec: the Command Executor collaborator (its module is
not part of the core source).  It holds a configured environment that answers
the query commands, and an optional bound connection. -/
structure CommandExecutor where
  current_output : List String
  history_output : List String
  heads_output : List String
  connection : Option Engine := none
  deriving DecidableEq, Repr

/-- Modelled from the spec: `CommandExecutor.from_config` builds the executor
environment from the configuration. -/
def CommandExecutor.from_config (config : Config) : CommandExecutor :=
  { current_output := config.current_output
    history_output := config.history_output
    heads_output := config.heads_output
    connection := none }

/-- Modelled from the spec: `configure(connection=...)` binds a connection
into the executor's environment. -/
def CommandExecutor.configure (ce : CommandExecutor) (conn : Engine) : CommandExecutor :=
  { ce with connection := some conn }

/-- Modelled from the spec: the result a command returns — "history", "heads"
and "current" answer from the configured environment, the side-effecting
commands have no meaningful return value. -/
def CommandExecutor.cmdOutput (ce : CommandExecutor) (name : String) : List String :=
  if name = "current" then ce.current_output
  else if name = "history" then ce.history_output
  else if name = "heads" then ce.heads_output
  else []

/-- Modelled from the spec: the Connection Executor collaborator, constructed
from a live engine. -/
structure ConnectionExecutor where
  engine : Engine
  deriving DecidableEq, Repr

/-- Modelled from the spec: the parsed, immutable view of the revision
history — the chain of revision identifiers in upgrade order (oldest first),
not including the sentinel `"base"`. -/
structure AlembicHistory where
  revisions : List String
  deriving DecidableEq, Repr

/-- Split a character list at the first occurrence of the `" -> "` separator:
the segment before it and, when the separator occurs, the remainder after. -/
def splitArrow : List Char → List Char × Option (List Char)
  | [] => ([], none)
  | ' ' :: '-' :: '>' :: ' ' :: rest => ([], some rest)
  | c :: rest =>
    let (seg, tail) := splitArrow rest
    (c :: seg, tail)

/-- Modelled from the spec: parse a single raw history line of the
"revision -> parent" shape — exactly one `" -> "` separator, both sides
stripped. -/
def parseHistoryLine (line : String) : Option (String × String) :=
  match splitArrow line.data with
  | (rev, some rest) =>
    match splitArrow rest with
    | (_, some _) => none
    | (_, none) => some (pyStrip ⟨rev⟩, pyStrip ⟨rest⟩)
  | (_, none) => none

/-- Modelled from the spec: the parsed (revision, parent) records, listed
newest first, must form a chain whose last parent is `"base"`. -/
def chainOk : List (String × String) → Bool
  | [] => true
  | [(_, p)] => p = "base"
  | (_, p) :: (r, q) :: rest => p = r && chainOk ((r, q) :: rest)

/-- Modelled from the spec: `AlembicHistory.parse` turns the raw "history"
command output into a structured history, failing with a parse error when a
line does not match the expected shape. -/
def AlembicHistory.parse (raw : List String) : Except RunnerError AlembicHistory :=
  match raw.mapM parseHistoryLine with
  | none => .error .parseError
  | some records =>
    if chainOk records then .ok ⟨(records.map Prod.fst).reverse⟩
    else .error .parseError

/-- Modelled from the spec: `validate_revision` fails with an unknown-revision
error when the identifier is neither stored in the history nor `"base"`. -/
def AlembicHistory.validate_revision (h : AlembicHistory) (rev : String) :
    Except RunnerError Unit :=
  if rev = "base" ∨ rev ∈ h.revisions then .ok () else .error (.unknownRevision rev)

/-- Index of a revision in the chain (first match). -/
def idxOf : List String → String → Nat
  | [], _ => 0
  | x :: xs, r => if x = r then 0 else idxOf xs r + 1

/-- Position just after a revision in the chain; `"base"` sits before the
first stored revision. -/
def AlembicHistory.posAfter (h : AlembicHistory) (rev : String) : Nat :=
  if rev = "base" then 0 else idxOf h.revisions rev + 1

/-- Modelled from the spec: `revision_range(start, end)` returns every
revision strictly after `start` up to and including `end`, oldest to newest,
after validating both endpoints. -/
def AlembicHistory.revision_range (h : AlembicHistory) (start dest : String) :
    Except RunnerError (List String) :=
  match h.validate_revision start with
  | .error e => .error e
  | .ok _ =>
    match h.validate_revision dest with
    | .error e => .error e
    | .ok _ => .ok ((h.revisions.take (h.posAfter dest)).drop (h.posAfter start))

/-- The element immediately after the first occurrence of `r`. -/
def nextAfter : List String → String → Option String
  | [], _ => none
  | [_], _ => none
  | x :: y :: rest, r => if x = r then some y else nextAfter (y :: rest) r

/-- Modelled from the spec: `next_revision` is the immediate child in upgrade
direction, `none` at a head; from `"base"` it is the earliest revision. -/
def AlembicHistory.next_revision (h : AlembicHistory) (rev : String) :
    Except RunnerError (Option String) :=
  if rev = "base" then .ok h.revisions.head?
  else
    match h.validate_revision rev with
    | .error e => .error e
    | .ok _ => .ok (nextAfter h.revisions rev)

/-- Walk the chain remembering the previous element. -/
def prevOf (p : String) : List String → String → String
  | [], _ => "base"
  | x :: xs, r => if x = r then p else prevOf x xs r

/-- Modelled from the spec: `previous_revision` is the immediate parent,
`"base"` for a root revision. -/
def AlembicHistory.previous_revision (h : AlembicHistory) (rev : String) :
    Except RunnerError String :=
  match h.validate_revision rev with
  | .error e => .error e
  | .ok _ => .ok (prevOf "base" h.revisions rev)

/-- The migration context of `runner.py`: the command executor, the
per-revision seed-data mapping read once from configuration, and the optional
connection executor. -/
structure MigrationContext where
  command_executor : CommandExecutor
  revision_upgrade_data : List (String × UpgradeData)
  connection_executor : Option ConnectionExecutor := none
  deriving DecidableEq, Repr

/-- Result of one runner operation: the context afterwards, the trace of
observable effects, and the returned value or propagated exception. -/
structure OpResult (α : Type) where
  ctx : MigrationContext
  events : List Event
  result : Except RunnerError α

/-- Embedding of `MigrationContext.from_config`: the seed-data mapping is
read from `config.get("revision_upgrade_data", {})`. -/
def MigrationContext.from_config (config : Config) (command_executor : CommandExecutor) :
    MigrationContext :=
  { command_executor := command_executor
    revision_upgrade_data := config.revision_upgrade_data.getD []
    connection_executor := none }

/-- Value of the `current` property: first line of the "current" command's
output with surrounding whitespace stripped, or `"base"` on empty output. -/
def MigrationContext.currentVal (ctx : MigrationContext) : String :=
  match ctx.command_executor.current_output with
  | [] => "base"
  | s :: _ => pyStrip s

/-- Embedding of the `current` property as an operation: it runs the
"current" command and never fails. -/
def MigrationContext.current (ctx : MigrationContext) : OpResult String :=
  ⟨ctx, [Event.runCommand "current" []], .ok ctx.currentVal⟩

/-- Embedding of the `heads` property: runs the "heads" command. -/
def MigrationContext.heads (ctx : MigrationContext) : OpResult (List String) :=
  ⟨ctx, [Event.runCommand "heads" []], .ok ctx.command_executor.heads_output⟩

/-- Embedding of the `history` property: runs the "history" command and
parses its output afresh. -/
def MigrationContext.history (ctx : MigrationContext) : OpResult AlembicHistory :=
  ⟨ctx, [Event.runCommand "history" []],
    AlembicHistory.parse ctx.command_executor.history_output⟩

/-- Embedding of `raw_command`: forwards one command to the executor. -/
def MigrationContext.raw_command (ctx : MigrationContext) (name : String)
    (args : List String) : OpResult (List String) :=
  ⟨ctx, [Event.runCommand name args], .ok (ctx.command_executor.cmdOutput name)⟩

/-- The query events `managed_upgrade` emits before its loop: reading the
`current` property, then the `history` property. -/
def quEvents : List Event :=
  [Event.runCommand "current" [], Event.runCommand "history" []]

/-- The loop body of `managed_upgrade` over the resolved revision range: look
the revision up in the seed map; on a truthy payload call
`connection_executor.table_insert` (an `AttributeError` when no connection
executor is present) before the "upgrade" command to that revision. -/
def upgradeStep (ce : Option ConnectionExecutor) (data : List (String × UpgradeData)) :
    List String → List Event × Except RunnerError Unit
  | [] => ([], .ok ())
  | r :: rest =>
    match lookupData data r with
    | some d =>
      if d.truthy then
        match ce with
        | none => ([], .error (.attributeError "table_insert"))
        | some _ =>
          let s := upgradeStep ce data rest
          (Event.tableInsert r d :: Event.runCommand "upgrade" [r] :: s.1, s.2)
      else
        let s := upgradeStep ce data rest
        (Event.runCommand "upgrade" [r] :: s.1, s.2)
    | none =>
      let s := upgradeStep ce data rest
      (Event.runCommand "upgrade" [r] :: s.1, s.2)

/-- Embedding of `managed_upgrade`: read `current`, resolve
`history.revision_range(current, dest_revision)`, then run the seeding loop. -/
def MigrationContext.managed_upgrade (ctx : MigrationContext) (dest_revision : String) :
    OpResult Unit :=
  match AlembicHistory.parse ctx.command_executor.history_output with
  | .error e => ⟨ctx, quEvents, .error e⟩
  | .ok hist =>
    match hist.revision_range ctx.currentVal dest_revision with
    | .error e => ⟨ctx, quEvents, .error e⟩
    | .ok range =>
      let s := upgradeStep ctx.connection_executor ctx.revision_upgrade_data range
      ⟨ctx, quEvents ++ s.1, s.2⟩

/-- Embedding of `migrate_up_before`: previous revision via the history, then
`managed_upgrade` to it. -/
def MigrationContext.migrate_up_before (ctx : MigrationContext) (revision : String) :
    OpResult Unit :=
  match AlembicHistory.parse ctx.command_executor.history_output with
  | .error e => ⟨ctx, [Event.runCommand "history" []], .error e⟩
  | .ok hist =>
    match hist.previous_revision revision with
    | .error e => ⟨ctx, [Event.runCommand "history" []], .error e⟩
    | .ok prev =>
      let r := ctx.managed_upgrade prev
      ⟨r.ctx, Event.runCommand "history" [] :: r.events, r.result⟩

/-- Embedding of `migrate_up_to`: `managed_upgrade` directly. -/
def MigrationContext.migrate_up_to (ctx : MigrationContext) (revision : String) :
    OpResult Unit :=
  ctx.managed_upgrade revision

/-- Stands for the Python `None` that `next_revision` yields at a head and
that `migrate_up_one` then passes on as an upgrade destination. -/
def pyNone : String := "None"

/-- Embedding of `migrate_up_one`: `next_revision(current)` (reading the
history, then the current revision), then `managed_upgrade` to it. -/
def MigrationContext.migrate_up_one (ctx : MigrationContext) : OpResult Unit :=
  match AlembicHistory.parse ctx.command_executor.history_output with
  | .error e => ⟨ctx, [Event.runCommand "history" []], .error e⟩
  | .ok hist =>
    match hist.next_revision ctx.currentVal with
    | .error e =>
      ⟨ctx, [Event.runCommand "history" [], Event.runCommand "current" []], .error e⟩
    | .ok next =>
      let r := ctx.managed_upgrade (next.getD pyNone)
      ⟨r.ctx, Event.runCommand "history" [] :: Event.runCommand "current" [] :: r.events,
        r.result⟩

/-- Embedding of `migrate_down_before`: resolve `next_revision(revision)`
through the history; the source then evaluates `self.get_hash_before(...)`,
an attribute `MigrationContext` never defines, so the attribute lookup raises
an `AttributeError` before any "downgrade" command can be issued. -/
def MigrationContext.migrate_down_before (ctx : MigrationContext) (revision : String) :
    OpResult Unit :=
  match AlembicHistory.parse ctx.command_executor.history_output with
  | .error e => ⟨ctx, [Event.runCommand "history" []], .error e⟩
  | .ok hist =>
    match hist.next_revision revision with
    | .error e => ⟨ctx, [Event.runCommand "history" []], .error e⟩
    | .ok _ =>
      ⟨ctx, [Event.runCommand "history" []], .error (.attributeError "get_hash_before")⟩

/-- Embedding of `migrate_down_to`: `history.validate_revision(revision)`,
then a raw "downgrade" command to that same revision. -/
def MigrationContext.migrate_down_to (ctx : MigrationContext) (revision : String) :
    OpResult Unit :=
  match AlembicHistory.parse ctx.command_executor.history_output with
  | .error e => ⟨ctx, [Event.runCommand "history" []], .error e⟩
  | .ok hist =>
    match hist.validate_revision revision with
    | .error e => ⟨ctx, [Event.runCommand "history" []], .error e⟩
    | .ok _ =>
      ⟨ctx, [Event.runCommand "history" [], Event.runCommand "downgrade" [revision]],
        .ok ()⟩

/-- Embedding of `migrate_down_one`: a raw "downgrade" to the relative target
`"-1"`. -/
def MigrationContext.migrate_down_one (ctx : MigrationContext) : OpResult Unit :=
  ⟨ctx, [Event.runCommand "downgrade" ["-1"]], .ok ()⟩

/-- Embedding of `roundtrip_next_revision`: up one, down one, up one, with
exceptions propagating. -/
def MigrationContext.roundtrip_next_revision (ctx : MigrationContext) : OpResult Unit :=
  let r1 := ctx.migrate_up_one
  match r1.result with
  | .error e => ⟨r1.ctx, r1.events, .error e⟩
  | .ok _ =>
    let r2 := r1.ctx.migrate_down_one
    match r2.result with
    | .error e => ⟨r2.ctx, r1.events ++ r2.events, .error e⟩
    | .ok _ =>
      let r3 := r2.ctx.migrate_up_one
      ⟨r3.ctx, r1.events ++ r2.events ++ r3.events, r3.result⟩

/-- Embedding of `insert_into`: evaluates the `current` property as an
argument, then calls the connection executor; calling `None` raises a
`TypeError`. -/
def MigrationContext.insert_into (ctx : MigrationContext) (table : String)
    (_data : UpgradeData) : OpResult Unit :=
  match ctx.connection_executor with
  | none =>
    ⟨ctx, [Event.runCommand "current" []],
      .error (.typeError "NoneType object is not callable")⟩
  | some _ =>
    ⟨ctx, [Event.runCommand "current" [], Event.connectionInsert ctx.currentVal table],
      .ok ()⟩

/-- Behaviour of a caller-supplied `process_revision_directives` callback:
given `(context, revision, directives)` it either returns a value or raises. -/
def Callback : Type := String → String → String → Except RunnerError Nat

namespace RevisionSuccess

/-- Embedding of `RevisionSuccess.process_revision_directives`: wraps an
optional caller callback into a hook that invokes the callback (when present)
with the given arguments, then raises the `RevisionSuccess` sentinel.  The
trace records each invocation of the caller callback; the hook itself never
returns normally. -/
def process_revision_directives (fn : Option Callback) (context revision directives : String) :
    List Event × RunnerError :=
  match fn with
  | none => ([], .revisionSuccess)
  | some f =>
    match f context revision directives with
    | .ok _ => ([Event.callFn context revision directives], .revisionSuccess)
    | .error e => ([Event.callFn context revision directives], e)

end RevisionSuccess

/-- Modelled from the spec: `run_command "revision"` computes the in-memory
revision directives `(context, revision, directives)`, invokes the supplied
`process_revision_directives` hook on them, and — only if the hook returns —
writes the revision file and returns its metadata; an exception raised by the
hook propagates unchanged. -/
def run_revision_command (context revision directives : String)
    (hook : String → String → String → List Event × RunnerError) :
    List Event × Except RunnerError (Option Nat) :=
  let h := hook context revision directives
  (Event.runCommand "revision" [] :: h.1, .error h.2)

/-- Embedding of `generate_revision`: wrap the optional caller callback with
the `RevisionSuccess` interceptor, run the "revision" command with it, and
catch exactly the `RevisionSuccess` sentinel, returning `none`.  The
`(context, revision, directives)` the underlying tool computes are
parameters of the model. -/
def MigrationContext.generate_revision (ctx : MigrationContext)
    (process_revision_directives : Option Callback)
    (context revision directives : String) : OpResult (Option Nat) :=
  let fn := RevisionSuccess.process_revision_directives process_revision_directives
  let run := run_revision_command context revision directives fn
  match run.2 with
  | .error .revisionSuccess => ⟨ctx, run.1, .ok none⟩
  | .error e => ⟨ctx, run.1, .error e⟩
  | .ok v => ⟨ctx, run.1, .ok v⟩

/-- Embedding of entering the `runner` context manager: build the command
executor from the configuration, build the migration context from it and,
when an engine is supplied, bind the engine as the executor's connection and
attach a connection executor before yielding. -/
def runner_enter (config : Config) (engine : Option Engine) :
    List Event × MigrationContext :=
  let command_executor := CommandExecutor.from_config config
  let migration_context := MigrationContext.from_config config command_executor
  match engine with
  | some eng =>
    ([Event.acquireCommandEnv, Event.bindConnection eng.id],
      { migration_context with
          command_executor := command_executor.configure eng
          connection_executor := some ⟨eng⟩ })
  | none => ([Event.acquireCommandEnv], migration_context)

/-- Embedding of exiting the `runner` context manager: the generator body has
no statement after its `yield` and no `try`/`finally`, so nothing runs on
exit — neither on normal completion nor when an exception is thrown back in
at the yield point. -/
def runner_exit_events : List Event := []

/-- Embedding of `with runner(config, engine) as ctx: body` — enter, run the
body on the yielded context, exit; the body's outcome (value or exception)
passes through unchanged. -/
def runner_with {α : Type} (config : Config) (engine : Option Engine)
    (body : MigrationContext → OpResult α) : List Event × Except RunnerError α :=
  let entered := runner_enter config engine
  let r := body entered.2
  (entered.1 ++ r.events ++ runner_exit_events, r.result)

/-!  Characterisations of the operations, used by the claim theorems. -/

/-- Expected trace of `managed_upgrade`'s loop over a revision range: for a
revision with a truthy registered payload, the table insert for that revision
immediately precedes the "upgrade" command to it; every other revision gets
only the "upgrade" command. -/
def seedThenUpgradeEvents (data : List (String × UpgradeData)) : List String → List Event
  | [] => []
  | r :: rest =>
    (match lookupData data r with
     | some d =>
       if d.truthy then [Event.tableInsert r d, Event.runCommand "upgrade" [r]]
       else [Event.runCommand "upgrade" [r]]
     | none => [Event.runCommand "upgrade" [r]]) ++ seedThenUpgradeEvents data rest

/-- A plain sequence of "upgrade" commands, one per revision. -/
def upgradeOnlyEvents (l : List String) : List Event :=
  l.map fun r => Event.runCommand "upgrade" [r]

theorem upgradeStep_some (ce : ConnectionExecutor) (data : List (String × UpgradeData)) :
    ∀ l : List String, upgradeStep (some ce) data l = (seedThenUpgradeEvents data l, .ok ()) := by
  intro l
  induction l with
  | nil => rfl
  | cons r rest ih =>
    simp only [upgradeStep, seedThenUpgradeEvents]
    cases h : lookupData data r with
    | none => simp [ih]
    | some d =>
      cases hd : d.truthy with
      | true => simp [hd, ih]
      | false => simp [hd, ih]

theorem upgradeStep_none (data : List (String × UpgradeData)) :
    ∀ l : List String,
      upgradeStep none data l =
        (upgradeOnlyEvents (l.takeWhile fun r => !(seedTruthy data r)),
          if l.all (fun r => !(seedTruthy data r)) then .ok () else
            .error (.attributeError "table_insert")) := by
  intro l
  induction l with
  | nil => rfl
  | cons r rest ih =>
    simp only [upgradeStep]
    cases h : lookupData data r with
    | none =>
      simp [ih, List.takeWhile, List.all, seedTruthy, h, upgradeOnlyEvents]
    | some d =>
      cases hd : d.truthy with
      | true => simp [List.takeWhile, List.all, seedTruthy, h, hd, upgradeOnlyEvents]
      | false => simp [ih, List.takeWhile, List.all, seedTruthy, h, hd, upgradeOnlyEvents]

theorem managed_upgrade_events_ok (ctx : MigrationContext) (ce : ConnectionExecutor)
    (hist : AlembicHistory) (dest : String) (range : List String)
    (hce : ctx.connection_executor = some ce)
    (hh : AlembicHistory.parse ctx.command_executor.history_output = .ok hist)
    (hr : hist.revision_range ctx.currentVal dest = .ok range) :
    (ctx.managed_upgrade dest).result = .ok () ∧
      (ctx.managed_upgrade dest).events =
        quEvents ++ seedThenUpgradeEvents ctx.revision_upgrade_data range := by
  refine ⟨?_, ?_⟩ <;>
    simp only [MigrationContext.managed_upgrade, hh, hr, hce, upgradeStep_some]

theorem managed_upgrade_ctx (ctx : MigrationContext) (dest : String) :
    (ctx.managed_upgrade dest).ctx = ctx := by
  unfold MigrationContext.managed_upgrade
  split
  · rfl
  · split <;> rfl

theorem migrate_up_before_ctx (ctx : MigrationContext) (revision : String) :
    (ctx.migrate_up_before revision).ctx = ctx := by
  unfold MigrationContext.migrate_up_before
  split
  · rfl
  · split
    · rfl
    · exact managed_upgrade_ctx ctx _

theorem migrate_up_one_ctx (ctx : MigrationContext) :
    (ctx.migrate_up_one).ctx = ctx := by
  unfold MigrationContext.migrate_up_one
  split
  · rfl
  · split
    · rfl
    · exact managed_upgrade_ctx ctx _

theorem migrate_down_before_ctx (ctx : MigrationContext) (revision : String) :
    (ctx.migrate_down_before revision).ctx = ctx := by
  unfold MigrationContext.migrate_down_before
  split
  · rfl
  · split <;> rfl

theorem migrate_down_to_ctx (ctx : MigrationContext) (revision : String) :
    (ctx.migrate_down_to revision).ctx = ctx := by
  unfold MigrationContext.migrate_down_to
  split
  · rfl
  · split <;> rfl

theorem roundtrip_ctx (ctx : MigrationContext) :
    (ctx.roundtrip_next_revision).ctx = ctx := by
  unfold MigrationContext.roundtrip_next_revision
  dsimp only
  split
  · exact migrate_up_one_ctx ctx
  · split
    · simp [MigrationContext.migrate_down_one, migrate_up_one_ctx]
    · simp [MigrationContext.migrate_down_one, migrate_up_one_ctx]

theorem insert_into_ctx (ctx : MigrationContext) (table : String) (data : UpgradeData) :
    (ctx.insert_into table data).ctx = ctx := by
  unfold MigrationContext.insert_into
  split <;> rfl

theorem generate_revision_ctx (ctx : MigrationContext) (fn : Option Callback)
    (context revision directives : String) :
    (ctx.generate_revision fn context revision directives).ctx = ctx := by
  unfold MigrationContext.generate_revision
  dsimp only
  split <;> rfl

theorem upgrade_mem_seedThenUpgradeEvents (data : List (String × UpgradeData))
    (l : List String) (r : String) (h : r ∈ l) :
    Event.runCommand "upgrade" [r] ∈ seedThenUpgradeEvents data l := by
  induction l with
  | nil => cases h
  | cons x rest ih =>
    simp only [seedThenUpgradeEvents, List.mem_append]
    rcases List.mem_cons.mp h with hx | hx
    · subst hx
      left
      cases hl : lookupData data r with
      | none => simp
      | some d => cases hd : d.truthy <;> simp [hd]
    · exact Or.inr (ih hx)

theorem insert_mem_seedThenUpgradeEvents (data : List (String × UpgradeData)) :
    ∀ (l : List String) (r : String) (d' : UpgradeData),
      Event.tableInsert r d' ∈ seedThenUpgradeEvents data l →
      lookupData data r = some d' ∧ d'.truthy = true := by
  intro l
  induction l with
  | nil =>
    intro r d' h
    simp [seedThenUpgradeEvents] at h
  | cons x rest ih =>
    intro r d' h
    simp only [seedThenUpgradeEvents, List.mem_append] at h
    rcases h with h | h
    · cases hl : lookupData data x with
      | none => simp [hl] at h
      | some d =>
        cases hd : d.truthy with
        | false => simp [hl, hd] at h
        | true =>
          simp [hl, hd] at h
          obtain ⟨hr, hd'⟩ := h
          subst hr
          subst hd'
          exact ⟨hl, hd⟩
    · exact ih r d' h

/-!  Concrete fixtures used by the witnesses and counterexamples. -/

/-- Fixture configuration: linear history base → R1 → R2, a non-empty seed
payload registered for R1 and an empty one for R2. -/
def cfgW : Config :=
  { current_output := []
    history_output := ["R2 -> R1", "R1 -> base"]
    heads_output := ["R2"]
    revision_upgrade_data := some [("R1", .dict [("name", "val")]), ("R2", .dict [])] }

/-- Fixture context yielded by the runner with an engine supplied. -/
def ctxW : MigrationContext := (runner_enter cfgW (some ⟨7⟩)).2

/-- Fixture context yielded by the runner with no engine supplied. -/
def ctxN : MigrationContext := (runner_enter cfgW none).2

/-- Fixture context whose "current" command output has surrounding
whitespace. -/
def ctxC : MigrationContext :=
  { command_executor :=
      { current_output := [" R1 \n"]
        history_output := ["R1 -> base"]
        heads_output := ["R1"] }
    revision_upgrade_data := []
    connection_executor := none }

/-- Fixture callback that returns a value. -/
def okFn : Callback := fun _ _ _ => .ok 42

/-- Fixture callback that raises an ordinary tool error. -/
def errFn : Callback := fun _ _ _ => .error (.toolError "boom")

/-!  Claim theorems. -/

/-- Claim C1: `managed_upgrade(dest)` resolves `revision_range(current, dest)` and,
for each revision of that ascending sequence in order, performs the table
insert of the seed data registered under that destination revision
identifier immediately before issuing the "upgrade" command landing on that
exact revision, while revisions without registered seed data get only the
"upgrade" command: the trace is exactly `seedThenUpgradeEvents` over the
range. -/
theorem managed_upgrade_seeds_before_upgrade
    (ctx : MigrationContext) (ce : ConnectionExecutor) (hist : AlembicHistory)
    (dest : String) (range : List String)
    (hce : ctx.connection_executor = some ce)
    (hh : AlembicHistory.parse ctx.command_executor.history_output = .ok hist)
    (hr : hist.revision_range ctx.currentVal dest = .ok range) :
    (ctx.managed_upgrade dest).result = .ok () ∧
      (ctx.managed_upgrade dest).events =
        quEvents ++ seedThenUpgradeEvents ctx.revision_upgrade_data range :=
  managed_upgrade_events_ok ctx ce hist dest range hce hh hr

/-- Witness for C1 at the fixture context: the range base → R2 is
["R1", "R2"], R1's seed insert precedes its upgrade, R2 is upgraded only. -/
theorem managed_upgrade_seeds_before_upgrade_witness :
    (ctxW.managed_upgrade "R2").result = .ok () ∧
      (ctxW.managed_upgrade "R2").events =
        quEvents ++ seedThenUpgradeEvents ctxW.revision_upgrade_data ["R1", "R2"] :=
  managed_upgrade_seeds_before_upgrade ctxW ⟨⟨7⟩⟩ ⟨["R1", "R2"]⟩ "R2" ["R1", "R2"]
    (by decide) (by decide) (by decide)

/-- Claim C2 (code evaluated at the failing input): `migrate_down_before("R1")` on
the fixture history resolves `next_revision("R1") = "R2"` and then evaluates
`self.get_hash_before`, an attribute `MigrationContext` never defines — so it
raises an `AttributeError` and issues no "downgrade" command at all, where
the claim promises exactly one "downgrade" targeting the computed
successor. -/
theorem migrate_down_before_raises_attribute_error :
    AlembicHistory.next_revision ⟨["R1", "R2"]⟩ "R1" = .ok (some "R2") ∧
    (ctxW.migrate_down_before "R1").result = .error (.attributeError "get_hash_before") ∧
    (ctxW.migrate_down_before "R1").events = [Event.runCommand "history" []] := by
  decide

/-- Claim C3 counterexample: with the fixture configuration and an engine bound,
exiting the runner context — on a normal body and on a body whose operation
raises — closes neither the command environment nor the connection: no close
event ever appears in the trace. -/
theorem runner_context_no_release_counterexample :
    Event.closeCommandEnv ∉
      (runner_with cfgW (some ⟨7⟩) (fun mc => mc.migrate_down_one)).1 ∧
    Event.closeConnection ∉
      (runner_with cfgW (some ⟨7⟩) (fun mc => mc.migrate_down_one)).1 ∧
    (runner_with cfgW (some ⟨7⟩) (fun mc => mc.migrate_down_to "nope")).2 =
      .error (.unknownRevision "nope") ∧
    Event.closeCommandEnv ∉
      (runner_with cfgW (some ⟨7⟩) (fun mc => mc.migrate_down_to "nope")).1 ∧
    Event.closeConnection ∉
      (runner_with cfgW (some ⟨7⟩) (fun mc => mc.migrate_down_to "nope")).1 := by
  decide

/-- Claim C3 (amended): entering the runner context acquires the command
environment and, when an engine is supplied, binds the connection and
attaches a connection executor — but exiting the context releases nothing:
the generator body has no code after its yield, so the trace of the whole
`with` block is exactly the entry events followed by the body's events, and
the body's outcome (including a propagating exception) passes through with no
close of the command or connection environment. -/
theorem runner_scope_acquires_but_never_releases {α : Type} (cfg : Config) (eng : Engine)
    (body : MigrationContext → OpResult α) :
    Event.acquireCommandEnv ∈ (runner_enter cfg (some eng)).1 ∧
    Event.bindConnection eng.id ∈ (runner_enter cfg (some eng)).1 ∧
    (runner_enter cfg (some eng)).2.connection_executor = some ⟨eng⟩ ∧
    (runner_enter cfg none).2.connection_executor = none ∧
    (runner_with cfg (some eng) body).1 =
      (runner_enter cfg (some eng)).1 ++ (body (runner_enter cfg (some eng)).2).events ∧
    (runner_with cfg (some eng) body).2 = (body (runner_enter cfg (some eng)).2).result ∧
    runner_exit_events = [] := by
  refine ⟨?_, ?_, rfl, rfl, ?_, rfl, rfl⟩
  · simp [runner_enter]
  · simp [runner_enter]
  · simp [runner_with, runner_exit_events]

/-- Characterisation of `generate_revision`'s outcome over all callback
behaviours. -/
theorem generate_revision_result (ctx : MigrationContext) (fn : Option Callback)
    (context revision directives : String) :
    (ctx.generate_revision fn context revision directives).result =
      (match fn with
       | none => .ok none
       | some f =>
         match f context revision directives with
         | .ok _ => .ok none
         | .error .revisionSuccess => .ok none
         | .error e => .error e) := by
  cases fn with
  | none => rfl
  | some f =>
    cases hf : f context revision directives with
    | ok v =>
      simp [MigrationContext.generate_revision, run_revision_command,
        RevisionSuccess.process_revision_directives, hf]
    | error e =>
      cases e <;>
        simp [MigrationContext.generate_revision, run_revision_command,
          RevisionSuccess.process_revision_directives, hf]

/-- Claim C4: `generate_revision` catches exactly the `RevisionSuccess` sentinel
raised from inside the "revision" command and returns normally with no
result; any other exception raised by the command executor propagates
unchanged to the caller; and the sentinel is never observable by a caller of
`generate_revision`. -/
theorem generate_revision_catches_only_sentinel (ctx : MigrationContext)
    (fn : Option Callback) (context revision directives : String) :
    (fn = none →
      (ctx.generate_revision fn context revision directives).result = .ok none) ∧
    (∀ (f : Callback) (v : Nat), fn = some f → f context revision directives = .ok v →
      (ctx.generate_revision fn context revision directives).result = .ok none) ∧
    (∀ (f : Callback) (e : RunnerError), fn = some f →
      f context revision directives = .error e → e ≠ .revisionSuccess →
      (ctx.generate_revision fn context revision directives).result = .error e) ∧
    (ctx.generate_revision fn context revision directives).result ≠
      .error .revisionSuccess := by
  refine ⟨?_, ?_, ?_, ?_⟩
  · rintro rfl
    rw [generate_revision_result]
  · rintro f v rfl h
    rw [generate_revision_result]
    simp [h]
  · rintro f e rfl h hne
    rw [generate_revision_result]
    cases e <;> simp_all
  · rw [generate_revision_result]
    cases fn with
    | none => simp
    | some f =>
      cases hf : f context revision directives with
      | ok v => simp [hf]
      | error e => cases e <;> simp [hf]

/-- Witness for C4: with no callback and with a value-returning callback the
result is `ok none`; a callback raising an ordinary tool error propagates it
unchanged. -/
theorem generate_revision_catches_only_sentinel_witness :
    (ctxW.generate_revision none "c" "r" "d").result = .ok none ∧
    (ctxW.generate_revision (some okFn) "c" "r" "d").result = .ok none ∧
    (ctxW.generate_revision (some errFn) "c" "r" "d").result =
      .error (.toolError "boom") :=
  ⟨(generate_revision_catches_only_sentinel ctxW none "c" "r" "d").1 rfl,
   (generate_revision_catches_only_sentinel ctxW (some okFn) "c" "r" "d").2.1
     okFn 42 rfl rfl,
   (generate_revision_catches_only_sentinel ctxW (some errFn) "c" "r" "d").2.2.1
     errFn (.toolError "boom") rfl rfl (by decide)⟩

/-- Claim C5: the wrapped `process_revision_directives` produced by the interceptor
invokes the caller-supplied callback exactly once, first, with the given
`(context, revision, directives)`, and then raises the `RevisionSuccess`
sentinel regardless of the callback's return value; with no callback it
raises the sentinel without any call. -/
theorem process_revision_directives_wraps_and_raises
    (context revision directives : String) :
    RevisionSuccess.process_revision_directives none context revision directives
      = ([], .revisionSuccess) ∧
    (∀ (f : Callback) (v : Nat), f context revision directives = .ok v →
      RevisionSuccess.process_revision_directives (some f) context revision directives
        = ([Event.callFn context revision directives], .revisionSuccess)) := by
  refine ⟨rfl, ?_⟩
  intro f v h
  simp [RevisionSuccess.process_revision_directives, h]

/-- Witness for C5 with the value-returning fixture callback. -/
theorem process_revision_directives_wraps_and_raises_witness :
    RevisionSuccess.process_revision_directives (some okFn) "c" "r" "d"
      = ([Event.callFn "c" "r" "d"], .revisionSuccess) :=
  (process_revision_directives_wraps_and_raises "c" "r" "d").2 okFn 42 rfl

/-- Claim C6: the `current` query runs the "current" command; a non-empty command
result yields its first element with surrounding whitespace stripped, an
empty result yields the sentinel `"base"`. -/
theorem current_query_first_line_or_base (ctx : MigrationContext) :
    (ctx.current).events = [Event.runCommand "current" []] ∧
    (∀ (s : String) (rest : List String),
      ctx.command_executor.current_output = s :: rest →
      (ctx.current).result = .ok (pyStrip s)) ∧
    (ctx.command_executor.current_output = [] →
      (ctx.current).result = .ok "base") := by
  refine ⟨rfl, ?_, ?_⟩
  · intro s rest h
    simp [MigrationContext.current, MigrationContext.currentVal, h]
  · intro h
    simp [MigrationContext.current, MigrationContext.currentVal, h]

/-- Witness for C6: a padded first line is stripped to "R1"; an empty output
yields "base". -/
theorem current_query_first_line_or_base_witness :
    (ctxC.current).result = .ok "R1" ∧ (ctxW.current).result = .ok "base" := by
  constructor
  · have h := (current_query_first_line_or_base ctxC).2.1 " R1 \n" [] rfl
    rw [h]
    decide
  · exact (current_query_first_line_or_base ctxW).2.2 rfl

/-- Claim C7: `migrate_down_to(revision)` first validates the revision against the
parsed history and then issues exactly one raw "downgrade" command targeting
that same revision; for a revision absent from the history that is not
`"base"` it fails with the unknown-revision error and issues no "downgrade"
command at all. -/
theorem migrate_down_to_validates_then_downgrades
    (ctx : MigrationContext) (hist : AlembicHistory) (r : String)
    (hh : AlembicHistory.parse ctx.command_executor.history_output = .ok hist) :
    ((r = "base" ∨ r ∈ hist.revisions) →
      (ctx.migrate_down_to r).result = .ok () ∧
      (ctx.migrate_down_to r).events =
        [Event.runCommand "history" [], Event.runCommand "downgrade" [r]]) ∧
    ((r ≠ "base" ∧ r ∉ hist.revisions) →
      (ctx.migrate_down_to r).result = .error (.unknownRevision r) ∧
      ∀ args : List String,
        Event.runCommand "downgrade" args ∉ (ctx.migrate_down_to r).events) := by
  constructor
  · intro hv
    have hval : hist.validate_revision r = .ok () := by
      unfold AlembicHistory.validate_revision
      rw [if_pos hv]
    simp [MigrationContext.migrate_down_to, hh, hval]
  · rintro ⟨h1, h2⟩
    have hnot : ¬(r = "base" ∨ r ∈ hist.revisions) := by
      rintro (h | h)
      · exact h1 h
      · exact h2 h
    have hval : hist.validate_revision r = .error (.unknownRevision r) := by
      unfold AlembicHistory.validate_revision
      rw [if_neg hnot]
    simp [MigrationContext.migrate_down_to, hh, hval]

/-- Witness for C7: downgrading to the known revision "R1" issues exactly one
"downgrade" command after validation; downgrading to the unknown "nope"
raises the unknown-revision error with no "downgrade" issued. -/
theorem migrate_down_to_validates_then_downgrades_witness :
    ((ctxW.migrate_down_to "R1").result = .ok () ∧
      (ctxW.migrate_down_to "R1").events =
        [Event.runCommand "history" [], Event.runCommand "downgrade" ["R1"]]) ∧
    ((ctxW.migrate_down_to "nope").result = .error (.unknownRevision "nope") ∧
      Event.runCommand "downgrade" ["nope"] ∉ (ctxW.migrate_down_to "nope").events) := by
  constructor
  · exact (migrate_down_to_validates_then_downgrades ctxW ⟨["R1", "R2"]⟩ "R1"
      (by decide)).1 (by decide)
  · obtain ⟨h1, h2⟩ := (migrate_down_to_validates_then_downgrades ctxW ⟨["R1", "R2"]⟩
      "nope" (by decide)).2 (by decide)
    exact ⟨h1, h2 ["nope"]⟩

/-- Claim C8: the seed-data map `revision_upgrade_data` is populated once when the
context is built from configuration, and every operation of the runner hands
back a context whose `revision_upgrade_data` is unchanged. -/
theorem operations_preserve_revision_upgrade_data
    (cfg : Config) (ce : CommandExecutor) (ctx : MigrationContext)
    (dest rev name table : String) (args : List String)
    (fn : Option Callback) (context revision directives : String)
    (payload : UpgradeData) :
    (MigrationContext.from_config cfg ce).revision_upgrade_data
      = cfg.revision_upgrade_data.getD [] ∧
    (ctx.managed_upgrade dest).ctx.revision_upgrade_data = ctx.revision_upgrade_data ∧
    (ctx.migrate_up_before rev).ctx.revision_upgrade_data = ctx.revision_upgrade_data ∧
    (ctx.migrate_up_to rev).ctx.revision_upgrade_data = ctx.revision_upgrade_data ∧
    (ctx.migrate_up_one).ctx.revision_upgrade_data = ctx.revision_upgrade_data ∧
    (ctx.migrate_down_before rev).ctx.revision_upgrade_data = ctx.revision_upgrade_data ∧
    (ctx.migrate_down_to rev).ctx.revision_upgrade_data = ctx.revision_upgrade_data ∧
    (ctx.migrate_down_one).ctx.revision_upgrade_data = ctx.revision_upgrade_data ∧
    (ctx.roundtrip_next_revision).ctx.revision_upgrade_data = ctx.revision_upgrade_data ∧
    (ctx.current).ctx.revision_upgrade_data = ctx.revision_upgrade_data ∧
    (ctx.heads).ctx.revision_upgrade_data = ctx.revision_upgrade_data ∧
    (ctx.history).ctx.revision_upgrade_data = ctx.revision_upgrade_data ∧
    (ctx.raw_command name args).ctx.revision_upgrade_data = ctx.revision_upgrade_data ∧
    (ctx.generate_revision fn context revision directives).ctx.revision_upgrade_data
      = ctx.revision_upgrade_data ∧
    (ctx.insert_into table payload).ctx.revision_upgrade_data
      = ctx.revision_upgrade_data := by
  refine ⟨rfl, ?_, ?_, ?_, ?_, ?_, ?_, rfl, ?_, rfl, rfl, rfl, rfl, ?_, ?_⟩ <;>
    simp [managed_upgrade_ctx, migrate_up_before_ctx, migrate_up_one_ctx,
      migrate_down_before_ctx, migrate_down_to_ctx, roundtrip_ctx,
      generate_revision_ctx, insert_into_ctx, MigrationContext.migrate_up_to]

/-- Claim C9: a runner context created without an engine has no connection
executor; a `managed_upgrade` whose resolved range reaches a revision with a
truthy registered seed payload then fails with an `AttributeError` at the
insert step: the trace stops at the plain upgrades strictly before the first
seeded revision, and no seeded revision's "upgrade" command is ever
issued. -/
theorem managed_upgrade_without_connection_executor_fails
    (cfg : Config) (mc : MigrationContext) (dest : String)
    (hist : AlembicHistory) (range : List String) (r : String)
    (hmc : mc = (runner_enter cfg none).2)
    (hh : AlembicHistory.parse mc.command_executor.history_output = .ok hist)
    (hr : hist.revision_range mc.currentVal dest = .ok range)
    (hm : r ∈ range)
    (hs : seedTruthy mc.revision_upgrade_data r = true) :
    mc.connection_executor = none ∧
    (mc.managed_upgrade dest).result = .error (.attributeError "table_insert") ∧
    (mc.managed_upgrade dest).events =
      quEvents ++ upgradeOnlyEvents
        (range.takeWhile fun x => !(seedTruthy mc.revision_upgrade_data x)) ∧
    Event.runCommand "upgrade" [r] ∉ (mc.managed_upgrade dest).events := by
  have hce : mc.connection_executor = none := by
    subst hmc
    rfl
  have hall : (range.all fun x => !(seedTruthy mc.revision_upgrade_data x)) = false := by
    cases hc : range.all fun x => !(seedTruthy mc.revision_upgrade_data x) with
    | false => rfl
    | true =>
      exfalso
      have := List.all_eq_true.mp hc r hm
      simp [hs] at this
  have hchar : mc.managed_upgrade dest =
      ⟨mc,
        quEvents ++ upgradeOnlyEvents
          (range.takeWhile fun x => !(seedTruthy mc.revision_upgrade_data x)),
        .error (.attributeError "table_insert")⟩ := by
    simp only [MigrationContext.managed_upgrade, hh, hr, hce, upgradeStep_none, hall]
    simp
  refine ⟨hce, by rw [hchar], by rw [hchar], ?_⟩
  rw [hchar]
  intro hmem
  rcases List.mem_append.mp hmem with hq | hu
  · simp [quEvents] at hq
  · obtain ⟨x, hx, heq⟩ := List.mem_map.mp hu
    have hxr : x = r := by
      simpa using heq
    subst hxr
    have := List.mem_takeWhile_imp hx
    simp [hs] at this

/-- Witness for C9 at the fixture configuration without an engine: the range
base → R2 contains the seeded revision R1, so the upgrade fails before R1's
"upgrade" command is issued. -/
theorem managed_upgrade_without_connection_executor_fails_witness :
    ctxN.connection_executor = none ∧
    (ctxN.managed_upgrade "R2").result = .error (.attributeError "table_insert") ∧
    (ctxN.managed_upgrade "R2").events =
      quEvents ++ upgradeOnlyEvents
        (["R1", "R2"].takeWhile fun x => !(seedTruthy ctxN.revision_upgrade_data x)) ∧
    Event.runCommand "upgrade" ["R1"] ∉ (ctxN.managed_upgrade "R2").events :=
  managed_upgrade_without_connection_executor_fails cfgW ctxN "R2" ⟨["R1", "R2"]⟩
    ["R1", "R2"] "R1" rfl (by decide) (by decide) (by decide) (by decide)

/-- Claim C10: a seed payload that is registered but empty (an empty mapping or an
empty sequence) is treated exactly like an absent registration: no table
insert is performed for that revision, while its "upgrade" command is still
issued and the upgrade completes. -/
theorem empty_seed_payload_skipped
    (ctx : MigrationContext) (ce : ConnectionExecutor) (hist : AlembicHistory)
    (dest : String) (range : List String) (r : String) (d : UpgradeData)
    (hce : ctx.connection_executor = some ce)
    (hh : AlembicHistory.parse ctx.command_executor.history_output = .ok hist)
    (hr : hist.revision_range ctx.currentVal dest = .ok range)
    (hm : r ∈ range)
    (hd : lookupData ctx.revision_upgrade_data r = some d)
    (hempty : d.truthy = false) :
    (∀ d' : UpgradeData, Event.tableInsert r d' ∉ (ctx.managed_upgrade dest).events) ∧
    Event.runCommand "upgrade" [r] ∈ (ctx.managed_upgrade dest).events ∧
    (ctx.managed_upgrade dest).result = .ok () := by
  obtain ⟨hres, hev⟩ := managed_upgrade_events_ok ctx ce hist dest range hce hh hr
  refine ⟨?_, ?_, hres⟩
  · intro d' hmem
    rw [hev] at hmem
    rcases List.mem_append.mp hmem with hq | hu
    · simp [quEvents] at hq
    · obtain ⟨hl, ht⟩ := insert_mem_seedThenUpgradeEvents _ range r d' hu
      rw [hd] at hl
      injection hl with hl
      subst hl
      rw [hempty] at ht
      exact Bool.noConfusion ht
  · rw [hev]
    exact List.mem_append_right _
      (upgrade_mem_seedThenUpgradeEvents ctx.revision_upgrade_data range r hm)

/-- Witness for C10 at the fixture context: R2 carries an empty dict payload,
so base → R2 performs no insert for R2 yet still issues its "upgrade". -/
theorem empty_seed_payload_skipped_witness :
    Event.tableInsert "R2" (.dict []) ∉ (ctxW.managed_upgrade "R2").events ∧
    Event.runCommand "upgrade" ["R2"] ∈ (ctxW.managed_upgrade "R2").events ∧
    (ctxW.managed_upgrade "R2").result = .ok () := by
  obtain ⟨h1, h2, h3⟩ := empty_seed_payload_skipped ctxW ⟨⟨7⟩⟩ ⟨["R1", "R2"]⟩ "R2"
    ["R1", "R2"] "R2" (.dict []) (by decide) (by decide) (by decide) (by decide)
    (by decide) (by decide)
  exact ⟨h1 (.dict []), h2, h3⟩

end PytestAlembic
